import Mathlib

/-!
Verification development for the Helios portal token-deployer and governance
front end.  The definitions below are a shallow embedding of the TypeScript
source: JavaScript strings become Lean `String`, JavaScript `number` values
become an exact tagged rational model (binary64 rounding at the extremes of
the exponent range is not modelled; no claim depends on it), `BigInt` becomes
`Int`, and fallible operations return `Option`.
-/

set_option maxRecDepth 100000

namespace Helios

/-! ## JavaScript primitives -/

/-- Numeric value of a hexadecimal digit character (also covers decimal). -/
def hexDigitVal (c : Char) : Nat :=
  if c.isDigit then c.toNat - 48
  else if 'a' ≤ c ∧ c ≤ 'f' then c.toNat - 97 + 10
  else if 'A' ≤ c ∧ c ≤ 'F' then c.toNat - 65 + 10
  else 0

/-- Value of a digit string in the given base (digits assumed valid). -/
def digitsToNat (l : List Char) (base : Nat) : Nat :=
  l.foldl (fun a c => a * base + hexDigitVal c) 0

def isHexChar (c : Char) : Bool :=
  c.isDigit || ('a' ≤ c && c ≤ 'f') || ('A' ≤ c && c ≤ 'F')

def isOctChar (c : Char) : Bool := '0' ≤ c && c ≤ '7'

def isBinChar (c : Char) : Bool := c == '0' || c == '1'

/-- JavaScript whitespace trimming (both ends), as performed by `Number`,
`parseInt` and `String.prototype.trim`. -/
def jsTrim (s : String) : String :=
  String.mk (((s.toList.dropWhile Char.isWhitespace).reverse.dropWhile Char.isWhitespace).reverse)

/-- JavaScript `toLowerCase` (ASCII letters; the inputs of interest are hex
addresses). -/
def jsToLower (s : String) : String :=
  String.mk (s.toList.map Char.toLower)

def startsWithMinus : List Char → Bool
  | '-' :: _ => true
  | _ => false

/-- JavaScript `split(".")` on a character list. -/
def splitOnDot : List Char → List (List Char)
  | [] => [[]]
  | c :: rest =>
      match splitOnDot rest with
      | h :: t => if c = '.' then [] :: h :: t else (c :: h) :: t
      | [] => [[c]]

/-- JavaScript `Array.prototype.slice` / `String.prototype.slice` index
normalisation: negative indices count from the end, results are clamped. -/
def jsSliceL (l : List Char) (start : Int) (stop : Option Int) : List Char :=
  let len : Int := l.length
  let norm : Int → Nat := fun i => (if i < 0 then max (len + i) 0 else min i len).toNat
  let a := norm start
  let b := match stop with
    | none => l.length
    | some e => norm e
  (l.take b).drop a

/-- The regex replace `/(0+)$/ → empty` used by viem on the fraction part. -/
def trimTrailingZeros (l : List Char) : List Char :=
  (l.reverse.dropWhile (· == '0')).reverse

/-- JavaScript `BigInt(string)` on the strings produced inside `parseUnits`:
empty string is 0, an optional minus sign followed by decimal digits parses,
anything else throws (`none`). -/
def bigIntOfChars (l : List Char) : Option Int :=
  match l with
  | [] => some 0
  | '-' :: rest =>
      if rest ≠ [] ∧ rest.all Char.isDigit then some (-(digitsToNat rest 10 : Int)) else none
  | _ => if l.all Char.isDigit then some ((digitsToNat l 10 : Int)) else none

/-- The viem `parseUnits` input test, regex `(leading minus)? digits* dot? digits*`
anchored at both ends. -/
def decimalShapeOk (s : String) : Bool :=
  let l0 := s.toList
  let l := if startsWithMinus l0 then l0.drop 1 else l0
  l.all (fun c => c.isDigit || c == '.') && l.count '.' ≤ 1

/-- `Math.round(Number(unit ++ "." ++ right))` for a `unit` of at most one
digit and a digit string `right`; `none` models NaN (both parts empty).
Rounding half away from zero on a non-negative value adds one exactly when
the first digit of `right` is at least 5. -/
def roundUnitRight (unit right : List Char) : Option Nat :=
  if unit = [] ∧ right = [] then none
  else
    let up : Nat := match right with
      | c :: _ => if '5' ≤ c then 1 else 0
      | [] => 0
    some (digitsToNat unit 10 + up)

/-- Shallow embedding of viem `parseUnits(value, decimals)`.  Returns `none`
where the original throws (input failing the shape regex, or the final
`BigInt` conversion receiving a non-numeric string, which can happen for
negative `decimals`). -/
def parseUnits (value : String) (decimals : Int) : Option Int :=
  if ¬ decimalShapeOk value then none
  else
    let parts := splitOnDot value.toList
    let integer0 := (parts.get? 0).getD []
    let fraction0 := (parts.get? 1).getD ['0']
    let negative := startsWithMinus integer0
    let integer1 : List Char := if negative then integer0.drop 1 else integer0
    let fraction1 : List Char := trimTrailingZeros fraction0
    let step : List Char × List Char :=
      if decimals = 0 then
        let roundUp : Bool := match fraction1 with
          | [] => false
          | c :: _ => '5' ≤ c
        (if roundUp then (toString (digitsToNat integer1 10 + 1)).toList else integer1, [])
      else if (fraction1.length : Int) > decimals then
        let left := jsSliceL fraction1 0 (some (decimals - 1))
        let unit := jsSliceL fraction1 (decimals - 1) (some decimals)
        let right := jsSliceL fraction1 decimals none
        let rounded : Option Nat := roundUnitRight unit right
        let fraction2 : List Char :=
          if (match rounded with | some n => decide (n > 9) | none => false) then
            let f1 := (toString (digitsToNat left 10 + 1)).toList ++ ['0']
            if f1.length < left.length + 1 then
              List.replicate (left.length + 1 - f1.length) '0' ++ f1
            else f1
          else
            left ++ (match rounded with
              | some n => (toString n).toList
              | none => ['N', 'a', 'N'])
        let carried : List Char × List Char :=
          if (fraction2.length : Int) > decimals then
            ((toString (digitsToNat integer1 10 + 1)).toList, fraction2.drop 1)
          else (integer1, fraction2)
        (carried.1, jsSliceL carried.2 0 (some decimals))
      else
        (integer1, fraction1 ++ List.replicate (decimals.toNat - fraction1.length) '0')
    bigIntOfChars ((if negative then ['-'] else []) ++ step.1 ++ step.2)

/-! ## JavaScript `Number` and `parseInt` -/

/-- Exact model of a JavaScript `number` produced by `Number(string)`:
NaN, signed infinities, or an exact rational value. -/
inductive JsNum where
  | nan
  | posInf
  | negInf
  | val (q : ℚ)
deriving DecidableEq

/-- Unsigned decimal literal: `digits [. digits] [exp]` or `. digits [exp]`,
with exponent `eE (sign)? digits`, exact rational value. -/
def parseExponent (l : List Char) : Option Int :=
  match l with
  | '+' :: rest =>
      if rest ≠ [] ∧ rest.all Char.isDigit then some ((digitsToNat rest 10 : Int)) else none
  | '-' :: rest =>
      if rest ≠ [] ∧ rest.all Char.isDigit then some (-(digitsToNat rest 10 : Int)) else none
  | _ => if l ≠ [] ∧ l.all Char.isDigit then some ((digitsToNat l 10 : Int)) else none

def parseUnsignedDec (l : List Char) : Option ℚ :=
  let ip := l.takeWhile Char.isDigit
  let rest := l.dropWhile Char.isDigit
  match rest with
  | [] => if ip = [] then none else some ((digitsToNat ip 10 : ℚ))
  | '.' :: rest2 =>
      let fp := rest2.takeWhile Char.isDigit
      let rest3 := rest2.dropWhile Char.isDigit
      if ip = [] ∧ fp = [] then none
      else
        let mant : ℚ := (digitsToNat ip 10 : ℚ) + (digitsToNat fp 10 : ℚ) / (10 : ℚ) ^ fp.length
        match rest3 with
        | [] => some mant
        | c :: rest4 =>
            if c = 'e' ∨ c = 'E' then (parseExponent rest4).map (fun e => mant * (10 : ℚ) ^ e)
            else none
  | c :: rest2 =>
      if (c = 'e' ∨ c = 'E') ∧ ip ≠ [] then
        (parseExponent rest2).map (fun e => (digitsToNat ip 10 : ℚ) * (10 : ℚ) ^ e)
      else none

def jsNumAbs (l : List Char) : JsNum :=
  if l = "Infinity".toList then .posInf
  else match parseUnsignedDec l with
    | some q => .val q
    | none => .nan

def jsNumSigned (l : List Char) : JsNum :=
  match l with
  | '+' :: rest => jsNumAbs rest
  | '-' :: rest =>
      match jsNumAbs rest with
      | .posInf => .negInf
      | .val q => .val (-q)
      | _ => .nan
  | _ => jsNumAbs l

/-- JavaScript `Number(string)`: trims whitespace, empty is 0, recognises
`Infinity` with optional sign, hex / octal / binary literals without sign,
and signed decimal literals with optional fraction and exponent. -/
def jsNumber (s : String) : JsNum :=
  let t := jsTrim s
  if t = "" then .val 0
  else
    match t.toList with
    | '0' :: c :: rest =>
        if c = 'x' ∨ c = 'X' then
          if rest ≠ [] ∧ rest.all isHexChar then .val ((digitsToNat rest 16 : ℚ)) else .nan
        else if c = 'o' ∨ c = 'O' then
          if rest ≠ [] ∧ rest.all isOctChar then .val ((digitsToNat rest 8 : ℚ)) else .nan
        else if c = 'b' ∨ c = 'B' then
          if rest ≠ [] ∧ rest.all isBinChar then .val ((digitsToNat rest 2 : ℚ)) else .nan
        else jsNumSigned t.toList
    | _ => jsNumSigned t.toList

def JsNum.isNaNb : JsNum → Bool
  | .nan => true
  | _ => false

/-- JavaScript comparison `x <= 0` (false on NaN). -/
def JsNum.le0 : JsNum → Bool
  | .nan => false
  | .posInf => false
  | .negInf => true
  | .val q => decide (q ≤ 0)

/-- JavaScript comparison `x < 0` (false on NaN). -/
def JsNum.lt0 : JsNum → Bool
  | .nan => false
  | .posInf => false
  | .negInf => true
  | .val q => decide (q < 0)

/-- JavaScript comparison `x > 18` (false on NaN). -/
def JsNum.gt18 : JsNum → Bool
  | .nan => false
  | .posInf => true
  | .negInf => false
  | .val q => decide ((18 : ℚ) < q)

/-- `Number.isInteger` on the exact model. -/
def JsNum.isIntegerJs : JsNum → Bool
  | .val q => q.den == 1
  | _ => false

/-- JavaScript `parseInt(string)` with no radix argument: trims, optional
sign, `0x` prefix switches to hexadecimal, parses the longest digit prefix,
NaN (`none`) when no digit is found. -/
def parseInt (s : String) : Option Int :=
  let l := s.toList.dropWhile Char.isWhitespace
  let signed : Int × List Char :=
    match l with
    | '+' :: r => (1, r)
    | '-' :: r => (-1, r)
    | _ => (1, l)
  match signed.2 with
  | '0' :: c :: rest =>
      if c = 'x' ∨ c = 'X' then
        let ds := rest.takeWhile isHexChar
        if ds = [] then none else some (signed.1 * (digitsToNat ds 16 : Int))
      else
        let ds := signed.2.takeWhile Char.isDigit
        if ds = [] then none else some (signed.1 * (digitsToNat ds 10 : Int))
  | _ =>
      let ds := signed.2.takeWhile Char.isDigit
      if ds = [] then none else some (signed.1 * (digitsToNat ds 10 : Int))

/-- The expression `parseInt(decimals) || 18`: NaN and 0 are falsy. -/
def parseIntOr18 (s : String) : Int :=
  match parseInt s with
  | none => 18
  | some 0 => 18
  | some v => v

/-! ## Token creation request and validator
Embedding of `validateForm` from the token-deployer interface (identical to
`validateTokenParams` in the hook).  The optional logo is modelled as a
string with the empty string for absence, matching the falsy check in the
source. -/

structure TokenParams where
  name : String
  symbol : String
  denom : String
  totalSupply : String
  decimals : String
  logoBase64 : String
deriving DecidableEq

/-- Regex `[a-zA-Z0-9]+` anchored. -/
def symbolShapeOk (s : String) : Bool :=
  s ≠ "" && s.toList.all Char.isAlphanum

/-- Regex `[a-z0-9_]+` anchored. -/
def denomShapeOk (s : String) : Bool :=
  s ≠ "" && s.toList.all (fun c => c.isDigit || ('a' ≤ c && c ≤ 'z') || c == '_')

def nameRequiredOk (p : TokenParams) : Bool := (jsTrim p.name) ≠ ""
def symbolRequiredOk (p : TokenParams) : Bool := (jsTrim p.symbol) ≠ ""
def symbolFormatOk (p : TokenParams) : Bool := symbolShapeOk (jsTrim p.symbol)
def denomRequiredOk (p : TokenParams) : Bool := (jsTrim p.denom) ≠ ""
def denomFormatOk (p : TokenParams) : Bool := denomShapeOk (jsTrim p.denom)
def totalSupplyPositiveOk (p : TokenParams) : Bool :=
  (jsTrim p.totalSupply) ≠ "" && !(jsNumber p.totalSupply).isNaNb && !(jsNumber p.totalSupply).le0
def totalSupplyParseOk (p : TokenParams) : Bool :=
  (parseUnits p.totalSupply (parseIntOr18 p.decimals)).isSome
def decimalsOk (p : TokenParams) : Bool :=
  (jsTrim p.decimals) ≠ "" && !(jsNumber p.decimals).isNaNb && !(jsNumber p.decimals).lt0 &&
    !(jsNumber p.decimals).gt18 && (jsNumber p.decimals).isIntegerJs
def logoOk (p : TokenParams) : Bool :=
  !(p.logoBase64 ≠ "" && p.logoBase64.length > 100000)

/-- `validateForm` / `validateTokenParams`: the chain of checks from the
source, returning the first failure toast message, `none` for pass. -/
def validateForm (p : TokenParams) : Option String :=
  if !nameRequiredOk p then some "Token name is required"
  else if !symbolRequiredOk p then some "Token symbol is required"
  else if !symbolFormatOk p then some "Token symbol must contain only letters and numbers"
  else if !denomRequiredOk p then some "Token denomination is required"
  else if !denomFormatOk p then
    some "Denomination must contain only lowercase letters, numbers, and underscores"
  else if !totalSupplyPositiveOk p then some "Total supply must be a valid number greater than 0"
  else if !totalSupplyParseOk p then some "Total supply value is too large or invalid"
  else if !decimalsOk p then some "Decimals must be an integer between 0 and 18"
  else if !logoOk p then some "Logo image is too large. Please use a smaller image"
  else none

/-- The ordered check list of the validator, as the specification presents
it (rules 2 and 3 of the specification each split into a required and a
format check with distinct reasons, exactly as in the source). -/
def validatorRuleList (p : TokenParams) : List (Bool × String) :=
  [ (nameRequiredOk p, "Token name is required"),
    (symbolRequiredOk p, "Token symbol is required"),
    (symbolFormatOk p, "Token symbol must contain only letters and numbers"),
    (denomRequiredOk p, "Token denomination is required"),
    (denomFormatOk p, "Denomination must contain only lowercase letters, numbers, and underscores"),
    (totalSupplyPositiveOk p, "Total supply must be a valid number greater than 0"),
    (totalSupplyParseOk p, "Total supply value is too large or invalid"),
    (decimalsOk p, "Decimals must be an integer between 0 and 18"),
    (logoOk p, "Logo image is too large. Please use a smaller image") ]

/-- First-failure-wins semantics over an ordered check list. -/
def firstFailedReason : List (Bool × String) → Option String
  | [] => none
  | (ok, msg) :: rest => if ok then firstFailedReason rest else some msg

/-- Rule 4 as the specification words it: totalSupply is a positive finite
number.  Stated over the JavaScript numeric reading of the string; used to
compare the specified rule against the implemented one. -/
def specRule4PositiveFinite (p : TokenParams) : Bool :=
  match jsNumber p.totalSupply with
  | .val q => decide (0 < q)
  | _ => false

/-! ## Deployment submission (`handleDeploy`) -/

/-- `Math.min(Math.max(parseInt(decimals) || 18, 0), 18)`. -/
def clampDecimals (s : String) : Int :=
  min (max (parseIntOr18 s) 0) 18

/-- Observable result of a deployment attempt: either no broadcast happened
(an error was reported, no transaction handle exists) or the
`createErc20(name, symbol, denom, totalSupplyWei, decimals, logoBase64)`
write call was invoked with the given arguments. -/
inductive DeployAction where
  | rejected (msg : String)
  | broadcast (name symbol denom : String) (totalSupplyWei : Int) (decimals : Int) (logo : String)
deriving DecidableEq

/-- `handleDeploy`: validation, wallet precondition, network precondition,
then scaling and the `createErc20` broadcast.  `address` is the connected
wallet identity, `chainId` the wallet chain, `heliosNetworkId` the required
network id (a config constant not fixed here). -/
def handleDeploy (form : TokenParams) (address : Option String)
    (chainId heliosNetworkId : Nat) : DeployAction :=
  match validateForm form with
  | some msg => .rejected msg
  | none =>
    match address with
    | none => .rejected "Please connect your wallet to deploy tokens"
    | some _ =>
      if chainId ≠ heliosNetworkId then
        .rejected "Please switch to Helios network to deploy tokens"
      else
        let decimals := clampDecimals form.decimals
        match parseUnits form.totalSupply decimals with
        | none => .rejected "Failed to deploy token"
        | some totalSupplyWei =>
            .broadcast (jsTrim form.name) (jsTrim form.symbol) (jsTrim form.denom)
              totalSupplyWei decimals form.logoBase64

/-! ## Receipt logs and address extraction -/

structure Log where
  address : String
  topics : List String
  data : String
deriving DecidableEq

structure Receipt where
  logs : List Log
deriving DecidableEq

def ZERO_TOPIC : String :=
  "0x0000000000000000000000000000000000000000000000000000000000000000"

/-- `log.address.toLowerCase() === PRECOMPILE_CONTRACT_ADDRESS.toLowerCase()`:
the precompile address itself is a network constant, kept as a parameter. -/
def factoryLogMatches (precompile : String) (log : Log) : Bool :=
  jsToLower log.address == jsToLower precompile

/-- Regex `[a-fA-F0-9]{40}` anchored. -/
def hex40 (s : String) : Bool :=
  s.length == 40 && s.toList.all isHexChar

/-- Regex `0x[a-fA-F0-9]{40}` anchored. -/
def addressShapeOk (s : String) : Bool :=
  (match s.toList with
    | '0' :: 'x' :: _ => true
    | _ => false) && hex40 (s.drop 2)

/-- `data.slice(-40)`. -/
def sliceLast40 (s : String) : String :=
  if s.length ≤ 40 then s else s.drop (s.length - 40)

/-- The fallback test: a Transfer-style log with exactly three topics, a
well-formed emitting address, and an all-zero `from` topic (mint). -/
def isMintLog (log : Log) : Bool :=
  log.topics.length == 3 && addressShapeOk log.address &&
    log.topics.get? 1 == some ZERO_TOPIC

/-- The fallback loop over all logs of the receipt. -/
def fallbackScan : List Log → String
  | [] => ""
  | log :: rest => if isMintLog log then log.address else fallbackScan rest

/-- `extractTokenAddressFromReceipt` (receipt-parsing portion, identical in
the hook and in the interface component): primary factory-log rule, then the
mint-event fallback, then the empty string. -/
def extractTokenAddressFromReceipt (precompile : String) (r : Receipt) : String :=
  match r.logs.find? (factoryLogMatches precompile) with
  | some createLog =>
      if createLog.data ≠ "" ∧ createLog.data ≠ "0x" then
        let addressHex := sliceLast40 createLog.data
        if addressHex.length = 40 ∧ hex40 addressHex then "0x" ++ addressHex
        else if createLog.data.length = 66 ∧ hex40 (sliceLast40 createLog.data) then
          "0x" ++ sliceLast40 createLog.data
        else fallbackScan r.logs
      else fallbackScan r.logs
  | none => fallbackScan r.logs

/-- The primary (factory-log) rule yields nothing: either no log matches the
precompile address, or the first matching log has no usable data word. -/
def primaryFails (precompile : String) (r : Receipt) : Prop :=
  ∀ cl, r.logs.find? (factoryLogMatches precompile) = some cl →
    cl.data = "" ∨ cl.data = "0x" ∨ hex40 (sliceLast40 cl.data) = false

/-! ## Success-handler effect (transaction orchestrator, resolve step)
Embedding of the `React.useEffect` around `handleSuccess` in the interface
component: persisted recent-history list, persisted last-processed-hash
marker, in-session processed flag, and the derived `DeployedToken`. -/

structure DeployedToken where
  address : String
  name : String
  symbol : String
  denom : String
  totalSupply : String
  decimals : Option Int
  logoBase64 : String
  txHash : String
  timestamp : Int
deriving DecidableEq

/-- The record built in `handleSuccess` (`decimals: parseInt(form.decimals)`,
`none` modelling NaN). -/
def mkDeployedToken (addr : String) (form : TokenParams) (hash : String)
    (timestamp : Int) : DeployedToken :=
  ⟨addr, form.name, form.symbol, form.denom, form.totalSupply,
    parseInt form.decimals, form.logoBase64, hash, timestamp⟩

inductive Outcome where
  | succeeded
  | failed (msg : String)
  | skipped
deriving DecidableEq

structure OrchState where
  history : List DeployedToken
  lastProcessedTxHash : Option String
  hasProcessedSuccess : Bool
  inProgress : Bool
  showSuccess : Bool
  deployedToken : Option DeployedToken
deriving DecidableEq

/-- Body of `handleSuccess`, given the already-computed extraction result:
sets the processed flag first; an empty extraction result takes the catch
branch (error toast, progress cleared, nothing appended, marker untouched);
otherwise the token is unshifted onto the history, the list is truncated to
10 entries, and the hash marker is persisted. -/
def handleSuccessRun (extractResult : String) (form : TokenParams) (hash : String)
    (timestamp : Int) (st : OrchState) : OrchState × Outcome :=
  let st1 := { st with hasProcessedSuccess := true }
  if extractResult = "" then
    ({ st1 with inProgress := false }, .failed "Failed to get deployed token address")
  else
    let tok := mkDeployedToken extractResult form hash timestamp
    ({ st1 with
        deployedToken := some tok,
        showSuccess := true,
        inProgress := false,
        history := (tok :: st1.history).take 10,
        lastProcessedTxHash := some hash }, .succeeded)

/-- The effect guard: `handleSuccess` only runs when the transaction is
confirmed, a hash exists, the in-session flag is unset, and the persisted
marker differs from the hash. -/
def successEffect (isConfirmed : Bool) (hash : Option String) (extractResult : String)
    (form : TokenParams) (timestamp : Int) (st : OrchState) : OrchState × Outcome :=
  match hash with
  | none => (st, .skipped)
  | some h =>
      if isConfirmed ∧ ¬ st.hasProcessedSuccess then
        if st.lastProcessedTxHash = some h then (st, .skipped)
        else handleSuccessRun extractResult form h timestamp st
      else (st, .skipped)

/-! ## Governance proposal pagination (`loadProposals` and friends) -/

structure PagState (A : Type) where
  currentPage : Nat
  totalPages : Option Nat
  hasNextPage : Bool
  proposals : List A
deriving DecidableEq

/-- `loadProposals(page)`: an empty result marks `max(1, page - 1)` as the
total, disables Next, and (beyond page 1) moves the current page back and
reloads it; a non-empty result of fewer than `pageSize` records marks the
requested page as the last one.  The presentational mapping of raw records
is the identity here (its numeric part is `tallyPercents` below). -/
def loadProposals {A : Type} (fetch : Nat → List A) (pageSize : Nat)
    (page : Nat) (st : PagState A) : PagState A :=
  let rawData := fetch page
  if rawData.isEmpty then
    let actualTotalPages := max 1 (page - 1)
    let st1 := { st with totalPages := some actualTotalPages, hasNextPage := false }
    if page = 1 then { st1 with proposals := [] }
    else loadProposals fetch pageSize actualTotalPages
      { st1 with currentPage := actualTotalPages }
  else
    let isLastPage := rawData.length < pageSize
    { st with
        hasNextPage := !isLastPage,
        totalPages := if isLastPage then some page else st.totalPages,
        proposals := rawData }
termination_by (if page = 0 then 2 else page)
decreasing_by
  simp only [Nat.max_def]
  split_ifs <;> first | contradiction | omega

/-- `handlePageChange`: rejects page numbers below 1 and no-op requests,
otherwise moves the counter and loads (the `loading` re-entrancy guard is
vacuous in this single-threaded sequential model). -/
def handlePageChange {A : Type} (fetch : Nat → List A) (pageSize : Nat)
    (page : Nat) (st : PagState A) : PagState A :=
  if page < 1 ∨ page = st.currentPage then st
  else loadProposals fetch pageSize page { st with currentPage := page }

/-- `handleNext`: only advances while a next page is believed to exist. -/
def handleNext {A : Type} (fetch : Nat → List A) (pageSize : Nat)
    (st : PagState A) : PagState A :=
  if st.hasNextPage then handlePageChange fetch pageSize (st.currentPage + 1) st
  else st

/-! ## Proposal tally percentages -/

/-- The tally mapping inside `loadProposals`: BigInt counts, a zero total
replaced by 1 (`|| 1n`), and floor division `(count * 100n) / total` for
each of the four percentages. -/
def tallyPercents (yes no abstain noWithVeto : Nat) : Nat × Nat × Nat × Nat :=
  let total := if yes + no + abstain + noWithVeto = 0 then 1
               else yes + no + abstain + noWithVeto
  (yes * 100 / total, no * 100 / total, abstain * 100 / total, noWithVeto * 100 / total)

/-! ## Helper lemmas -/

/-- The fallback loop returns the address of the first mint-style log. -/
theorem fallbackScan_eq_find (l : List Log) :
    fallbackScan l = match l.find? isMintLog with
      | some lg => lg.address
      | none => "" := by
  induction l with
  | nil => rfl
  | cons x xs ih =>
      by_cases h : isMintLog x
      · simp [fallbackScan, h, List.find?_cons_of_pos]
      · simp only [fallbackScan, h, if_false, List.find?_cons_of_neg _ h, ih]
        simp [h]

/-! ## Claim C1: primary extraction rule -/

/-- C1 (amended): for every receipt whose first log matching the
factory/precompile address (case-insensitively) has a non-empty data payload
(neither the empty string nor the empty byte string `0x`) whose trailing 40
characters are valid hexadecimal, extraction returns `0x` followed by those
trailing 40 characters exactly as they appear in the data (case preserved,
not lower-cased). -/
theorem extract_primary_returns_trailing40 (precompile : String) (r : Receipt) (log : Log)
    (hfind : r.logs.find? (factoryLogMatches precompile) = some log)
    (hne1 : log.data ≠ "") (hne2 : log.data ≠ "0x")
    (hhex : hex40 (sliceLast40 log.data) = true) :
    extractTokenAddressFromReceipt precompile r = "0x" ++ sliceLast40 log.data := by
  have hlen : (sliceLast40 log.data).length = 40 := by
    simp only [hex40, Bool.and_eq_true, beq_iff_eq] at hhex
    exact hhex.1
  simp [extractTokenAddressFromReceipt, hfind, hne1, hne2, hlen, hhex]

def lowerHexTail : String := "00000000000000000000000000000000000000000000000000c0ffee00c0ffee"
def primaryWitnessLog : Log := ⟨"0xFACADE", [], "0x" ++ lowerHexTail⟩
def primaryWitnessReceipt : Receipt := ⟨[primaryWitnessLog]⟩

/-- C1 witness: a concrete factory-address receipt on which the primary
rule fires and yields the trailing 40 hexadecimal characters. -/
theorem extract_primary_returns_trailing40_witness :
    extractTokenAddressFromReceipt "0xfacade" primaryWitnessReceipt =
      "0x" ++ sliceLast40 primaryWitnessLog.data :=
  extract_primary_returns_trailing40 "0xfacade" primaryWitnessReceipt primaryWitnessLog
    (by decide) (by decide) (by decide) (by decide)

def upperTailData : String := "0x000000000000000000000000ABCDEF0123456789ABCDEF0123456789ABCDEF01"
def upperTailLog : Log := ⟨"0xfac7", [], upperTailData⟩
def upperTailReceipt : Receipt := ⟨[upperTailLog]⟩

/-- C1 counterexample: a factory-address log whose trailing 40 hexadecimal
characters contain upper-case letters.  The hypotheses of the claim hold,
yet extraction returns the characters with their original case, not
lower-cased as the claim states. -/
theorem extract_primary_not_lowercased :
    upperTailReceipt.logs.find? (factoryLogMatches "0xFAC7") = some upperTailLog ∧
    upperTailLog.data ≠ "" ∧ upperTailLog.data ≠ "0x" ∧
    hex40 (sliceLast40 upperTailLog.data) = true ∧
    extractTokenAddressFromReceipt "0xFAC7" upperTailReceipt =
      "0xABCDEF0123456789ABCDEF0123456789ABCDEF01" ∧
    extractTokenAddressFromReceipt "0xFAC7" upperTailReceipt ≠
      jsToLower ("0x" ++ sliceLast40 upperTailLog.data) := by
  refine ⟨by decide, by decide, by decide, by decide, ?_, ?_⟩ <;> decide

/-- When no log matches the precompile address the primary rule trivially
yields nothing. -/
theorem primaryFails_of_find_none {pre : String} {r : Receipt}
    (h : r.logs.find? (factoryLogMatches pre) = none) : primaryFails pre r := by
  intro cl hcl
  rw [h] at hcl
  exact absurd hcl (by simp)

/-! ## Claim C2: fallback extraction rule -/

/-- C2 (amended): for every receipt on which the primary rule yields
nothing, if some log has exactly three topics, a well-formed
`0x`-plus-40-hex emitting address, and an all-zero second topic, extraction
returns the emitting address of the first such log. -/
theorem extract_fallback_returns_mint_address (precompile : String) (r : Receipt) (log : Log)
    (hp : primaryFails precompile r)
    (hfind : r.logs.find? isMintLog = some log) :
    extractTokenAddressFromReceipt precompile r = log.address := by
  have hfall : fallbackScan r.logs = log.address := by
    rw [fallbackScan_eq_find, hfind]
  cases hcl : r.logs.find? (factoryLogMatches precompile) with
  | none => simp [extractTokenAddressFromReceipt, hcl, hfall]
  | some cl =>
      rcases hp cl hcl with h | h | h
      · simp [extractTokenAddressFromReceipt, hcl, h, hfall]
      · simp [extractTokenAddressFromReceipt, hcl, h, hfall]
      · by_cases hd1 : cl.data = ""
        · simp [extractTokenAddressFromReceipt, hcl, hd1, hfall]
        · by_cases hd2 : cl.data = "0x"
          · simp [extractTokenAddressFromReceipt, hcl, hd2, hfall]
          · simp [extractTokenAddressFromReceipt, hcl, hd1, hd2, h, hfall]

def mintWitnessLog : Log :=
  ⟨"0xaAaAaAaAaAaAaAaAaAaAaAaAaAaAaAaAaAaAaAaA", ["0xsig", ZERO_TOPIC, "0xrecipient"], "0x"⟩
def mintWitnessReceipt : Receipt := ⟨[mintWitnessLog]⟩

/-- C2 witness: a receipt with no factory log and one well-formed mint-style
log; extraction returns that log's emitting address. -/
theorem extract_fallback_returns_mint_address_witness :
    extractTokenAddressFromReceipt "0xprecompile" mintWitnessReceipt =
      mintWitnessLog.address :=
  extract_fallback_returns_mint_address "0xprecompile" mintWitnessReceipt mintWitnessLog
    (primaryFails_of_find_none (by decide)) (by decide)

def malformedMintLog : Log := ⟨"trust-me-token", ["0xsig", ZERO_TOPIC, "0xrecipient"], "0x"⟩
def malformedMintReceipt : Receipt := ⟨[malformedMintLog]⟩

/-- C2 counterexample: a receipt with no factory-address log and one log
with exactly three topics whose second topic is the 32-byte zero value.  The
claim says extraction returns that log's emitting address, but because the
address is not of the `0x` + 40-hex shape the code skips it and returns the
empty string. -/
theorem extract_fallback_requires_wellformed_address :
    malformedMintReceipt.logs.find? (factoryLogMatches "0xprecompile") = none ∧
    malformedMintLog.topics.length = 3 ∧
    malformedMintLog.topics.get? 1 = some ZERO_TOPIC ∧
    extractTokenAddressFromReceipt "0xprecompile" malformedMintReceipt = "" ∧
    extractTokenAddressFromReceipt "0xprecompile" malformedMintReceipt ≠
      malformedMintLog.address := by
  refine ⟨by decide, by decide, by decide, ?_, ?_⟩ <;> decide

/-! ## Claim C3: no match yields empty result and a reported failure -/

/-- C3: for every receipt matching neither the primary rule nor the
fallback rule, extraction returns the empty string (it is a total function,
no exception escapes), and the success handler run on that result takes the
catch branch: outcome `Failed` with the error message, history untouched. -/
theorem extract_no_match_empty_and_failed (precompile : String) (r : Receipt)
    (hp : primaryFails precompile r)
    (hnone : r.logs.find? isMintLog = none)
    (form : TokenParams) (hash : String) (ts : Int) (st : OrchState)
    (hflag : st.hasProcessedSuccess = false)
    (hmark : st.lastProcessedTxHash ≠ some hash) :
    extractTokenAddressFromReceipt precompile r = "" ∧
    (successEffect true (some hash) (extractTokenAddressFromReceipt precompile r)
        form ts st).2 = .failed "Failed to get deployed token address" ∧
    (successEffect true (some hash) (extractTokenAddressFromReceipt precompile r)
        form ts st).1.history = st.history := by
  have hfall : fallbackScan r.logs = "" := by
    rw [fallbackScan_eq_find, hnone]
  have hempty : extractTokenAddressFromReceipt precompile r = "" := by
    cases hcl : r.logs.find? (factoryLogMatches precompile) with
    | none => simp [extractTokenAddressFromReceipt, hcl, hfall]
    | some cl =>
        rcases hp cl hcl with h | h | h
        · simp [extractTokenAddressFromReceipt, hcl, h, hfall]
        · simp [extractTokenAddressFromReceipt, hcl, h, hfall]
        · by_cases hd1 : cl.data = ""
          · simp [extractTokenAddressFromReceipt, hcl, hd1, hfall]
          · by_cases hd2 : cl.data = "0x"
            · simp [extractTokenAddressFromReceipt, hcl, hd2, hfall]
            · simp [extractTokenAddressFromReceipt, hcl, hd1, hd2, h, hfall]
  refine ⟨hempty, ?_, ?_⟩ <;>
    simp [hempty, successEffect, hflag, hmark, handleSuccessRun]

def emptyReceipt : Receipt := ⟨[⟨"0xdeadbeef", ["0xsig"], "0x"⟩]⟩
def freshOrchState : OrchState := ⟨[], none, false, true, false, none⟩

/-- C3 witness: a concrete receipt matching neither rule, on a fresh
orchestrator state. -/
theorem extract_no_match_empty_and_failed_witness :
    extractTokenAddressFromReceipt "0xprecompile" emptyReceipt = "" ∧
    (successEffect true (some "0xhash") (extractTokenAddressFromReceipt "0xprecompile" emptyReceipt)
        ⟨"A", "A", "a", "1", "18", ""⟩ 0 freshOrchState).2 =
      .failed "Failed to get deployed token address" ∧
    (successEffect true (some "0xhash") (extractTokenAddressFromReceipt "0xprecompile" emptyReceipt)
        ⟨"A", "A", "a", "1", "18", ""⟩ 0 freshOrchState).1.history = freshOrchState.history :=
  extract_no_match_empty_and_failed "0xprecompile" emptyReceipt
    (primaryFails_of_find_none (by decide)) (by decide) ⟨"A", "A", "a", "1", "18", ""⟩ "0xhash" 0 freshOrchState
    (by decide) (by decide)

/-! ## Claim C4: validator rule order -/

/-- `firstFailedReason` passes exactly when every check holds. -/
theorem firstFailedReason_eq_none_iff (l : List (Bool × String)) :
    firstFailedReason l = none ↔ ∀ pr ∈ l, pr.1 = true := by
  induction l with
  | nil => simp [firstFailedReason]
  | cons x xs ih =>
      cases hx : x.1 with
      | true =>
          simp only [firstFailedReason, hx, if_true]
          rw [ih]
          constructor
          · intro h pr hpr
            rcases List.mem_cons.mp hpr with h1 | h1
            · rw [h1]; exact hx
            · exact h pr h1
          · intro h pr hpr
            exact h pr (List.mem_cons_of_mem _ hpr)
      | false =>
          simp only [firstFailedReason, hx, Bool.false_eq_true, if_false]
          constructor
          · intro h; cases h
          · intro h
            have := h x (List.mem_cons_self _ _)
            rw [this] at hx
            cases hx

/-- C4 (amended): the validator checks its rules in the stated order with
first-failure-wins semantics and passes exactly when all of them hold,
where rule 4 is implemented as "totalSupply is a JavaScript number greater
than 0" (finiteness is not checked there: a non-finite input such as
`Infinity` instead fails rule 5, the fixed-point parse of totalSupply)
and where rules 2 and 3 each carry a separate required and format reason. -/
theorem validateForm_first_failure_wins (p : TokenParams) :
    validateForm p = firstFailedReason (validatorRuleList p) ∧
    (validateForm p = none ↔ ∀ pr ∈ validatorRuleList p, pr.1 = true) := by
  have h : validateForm p = firstFailedReason (validatorRuleList p) := by
    simp only [validateForm, validatorRuleList, firstFailedReason]
    rcases nameRequiredOk p <;> rcases symbolRequiredOk p <;> rcases symbolFormatOk p <;>
      rcases denomRequiredOk p <;> rcases denomFormatOk p <;> rcases totalSupplyPositiveOk p <;>
      rcases totalSupplyParseOk p <;> rcases decimalsOk p <;> rcases logoOk p <;> rfl
  exact ⟨h, by rw [h]; exact firstFailedReason_eq_none_iff _⟩

def infinitySupplyParams : TokenParams := ⟨"A", "A", "a", "Infinity", "18", ""⟩

/-- C4 counterexample: for totalSupply `Infinity` the first rule violated
according to the claim is rule 4 (totalSupply must be a positive finite
number: rules 1 to 3 hold and the value is not finite), yet the validator
reports the rule 5 reason, because the implemented rule 4 only requires a
non-NaN value greater than 0, which `Infinity` satisfies. -/
theorem validateForm_infinity_misattributed :
    nameRequiredOk infinitySupplyParams = true ∧
    symbolRequiredOk infinitySupplyParams = true ∧
    symbolFormatOk infinitySupplyParams = true ∧
    denomRequiredOk infinitySupplyParams = true ∧
    denomFormatOk infinitySupplyParams = true ∧
    specRule4PositiveFinite infinitySupplyParams = false ∧
    validateForm infinitySupplyParams = some "Total supply value is too large or invalid" ∧
    validateForm infinitySupplyParams ≠ some "Total supply must be a valid number greater than 0" := by
  refine ⟨by decide, by decide, by decide, by decide, by decide, by decide, ?_, ?_⟩ <;> decide

/-! ## Claim C5: decimals scaling of the broadcast amount -/

def zeroDecimalsParams : TokenParams := ⟨"MyToken", "TKN", "tkn", "1", "0", ""⟩

/-- C5 (code bug): the request name `MyToken`, symbol `TKN`, denom `tkn`,
totalSupply `1`, decimals `0` passes validation, yet the broadcast carries
amount `10^18` and decimals `18` instead of amount `1` and decimals `0`:
`parseInt("0") || 18` treats the valid value 0 as falsy and replaces it
with the default 18, contradicting the adjacent comment and the validator
range as well as the decimals value stored on the derived DeployedToken. -/
theorem handleDeploy_decimals_zero_scales_by_1e18 :
    validateForm zeroDecimalsParams = none ∧
    handleDeploy zeroDecimalsParams (some "0xwallet") 42000 42000 =
      .broadcast "MyToken" "TKN" "tkn" (10 ^ 18) 18 "" ∧
    (mkDeployedToken "0xtoken" zeroDecimalsParams "0xhash" 0).decimals = some 0 ∧
    ((10 : Int) ^ 18 ≠ 1 * 10 ^ (0 : Nat)) := by
  refine ⟨by decide, by decide, by decide, by decide⟩

/-! ## Claim C6: failed validation or preconditions never broadcast -/

/-- C6: whenever any validation rule fails, or no wallet is connected, or
the wallet chain differs from the required Helios network id, the deploy
handler reports an error and the `createErc20` write call is never invoked
(no transaction handle can exist). -/
theorem handleDeploy_no_broadcast_on_failure (form : TokenParams)
    (address : Option String) (chainId heliosNetworkId : Nat)
    (h : validateForm form ≠ none ∨ address = none ∨ chainId ≠ heliosNetworkId) :
    ∃ msg, handleDeploy form address chainId heliosNetworkId = .rejected msg := by
  rcases h with h | h | h
  · cases hv : validateForm form with
    | none => exact absurd hv h
    | some msg => exact ⟨msg, by simp [handleDeploy, hv]⟩
  · subst h
    cases hv : validateForm form with
    | none =>
        exact ⟨"Please connect your wallet to deploy tokens", by simp [handleDeploy, hv]⟩
    | some msg => exact ⟨msg, by simp [handleDeploy, hv]⟩
  · cases hv : validateForm form with
    | none =>
        cases address with
        | none =>
            exact ⟨"Please connect your wallet to deploy tokens", by simp [handleDeploy, hv]⟩
        | some a =>
            exact ⟨"Please switch to Helios network to deploy tokens",
              by simp [handleDeploy, hv, h]⟩
    | some msg => exact ⟨msg, by simp [handleDeploy, hv]⟩

/-- C6 witness: a request failing the denom format rule, submitted with a
connected wallet on the right chain, is rejected without a broadcast. -/
theorem handleDeploy_no_broadcast_on_failure_witness :
    ∃ msg, handleDeploy ⟨"A", "T", "BAD", "1", "18", ""⟩ (some "0xwallet") 42000 42000 =
      .rejected msg :=
  handleDeploy_no_broadcast_on_failure ⟨"A", "T", "BAD", "1", "18", ""⟩
    (some "0xwallet") 42000 42000 (Or.inl (by decide))

/-! ## Claim C7: at most one DeployedToken per transaction handle -/

/-- C7: when the persisted last-processed marker already equals the handle,
or the in-session processed flag is set, the success effect is skipped
entirely: the state (history included) is unchanged and no second
DeployedToken is derived for that handle. -/
theorem successEffect_idempotent (isConfirmed : Bool) (extractResult : String)
    (form : TokenParams) (hash : String) (ts : Int) (st : OrchState)
    (h : st.lastProcessedTxHash = some hash ∨ st.hasProcessedSuccess = true) :
    successEffect isConfirmed (some hash) extractResult form ts st = (st, .skipped) := by
  rcases h with h | h
  · simp [successEffect, h]
  · simp [successEffect, h]

def processedOrchState : OrchState :=
  ⟨[mkDeployedToken "0xtoken" zeroDecimalsParams "0xhash" 7], some "0xhash", true, false, true,
    some (mkDeployedToken "0xtoken" zeroDecimalsParams "0xhash" 7)⟩

/-- C7 witness: replaying the already-processed handle `0xhash` leaves the
state untouched and appends nothing. -/
theorem successEffect_idempotent_witness :
    successEffect true (some "0xhash") "0xtoken" zeroDecimalsParams 8 processedOrchState =
      (processedOrchState, .skipped) :=
  successEffect_idempotent true "0xtoken" zeroDecimalsParams "0xhash" 8 processedOrchState
    (Or.inl (by decide))

/-! ## Claim C8: bounded most-recent-first history -/

/-- C8: every successful resolution pushes the new DeployedToken on the
front of the history and truncates to 10 entries, so the resulting list
starts with the new token and has length at most 10, whatever the length
of the pre-existing persisted list. -/
theorem successEffect_history_bounded (extractResult : String) (form : TokenParams)
    (hash : String) (ts : Int) (st : OrchState)
    (hne : extractResult ≠ "")
    (hflag : st.hasProcessedSuccess = false)
    (hmark : st.lastProcessedTxHash ≠ some hash) :
    (successEffect true (some hash) extractResult form ts st).2 = .succeeded ∧
    (successEffect true (some hash) extractResult form ts st).1.history =
      (mkDeployedToken extractResult form hash ts :: st.history).take 10 ∧
    (successEffect true (some hash) extractResult form ts st).1.history.head? =
      some (mkDeployedToken extractResult form hash ts) ∧
    (successEffect true (some hash) extractResult form ts st).1.history.length ≤ 10 := by
  have hrun : successEffect true (some hash) extractResult form ts st =
      handleSuccessRun extractResult form hash ts st := by
    simp [successEffect, hflag, hmark]
  refine ⟨?_, ?_, ?_, ?_⟩ <;>
    simp [hrun, handleSuccessRun, hne, List.take_succ_cons, List.length_take]

def longHistoryState : OrchState :=
  ⟨List.replicate 12 (mkDeployedToken "0xold" zeroDecimalsParams "0xoldhash" 1),
    none, false, true, false, none⟩

/-- C8 witness: appending onto a pre-existing 12-entry history yields the
new token first and exactly 10 entries. -/
theorem successEffect_history_bounded_witness :
    (successEffect true (some "0xh2") "0xnew" zeroDecimalsParams 9 longHistoryState).2 =
      .succeeded ∧
    (successEffect true (some "0xh2") "0xnew" zeroDecimalsParams 9 longHistoryState).1.history =
      (mkDeployedToken "0xnew" zeroDecimalsParams "0xh2" 9 :: longHistoryState.history).take 10 ∧
    (successEffect true (some "0xh2") "0xnew" zeroDecimalsParams 9 longHistoryState).1.history.head? =
      some (mkDeployedToken "0xnew" zeroDecimalsParams "0xh2" 9) ∧
    (successEffect true (some "0xh2") "0xnew" zeroDecimalsParams 9 longHistoryState).1.history.length ≤ 10 :=
  successEffect_history_bounded "0xnew" zeroDecimalsParams "0xh2" 9 longHistoryState
    (by decide) (by decide) (by decide)

/-! ## Claim C9: pagination -/

/-- After any load starting at a page of at least 1, the current page never
ends up beyond the larger of its starting value and the page before the
requested one. -/
theorem loadProposals_currentPage_le {A : Type} (fetch : Nat → List A) (S : Nat) :
    ∀ page : Nat, 1 ≤ page → ∀ st : PagState A,
      (loadProposals fetch S page st).currentPage ≤ max st.currentPage (page - 1) := by
  intro page
  induction page using Nat.strong_induction_on with
  | _ page ih =>
      intro hpage st
      rw [loadProposals]
      by_cases hemp : (fetch page).isEmpty
      · simp only [hemp, if_true]
        by_cases h1 : page = 1
        · simp [h1]
        · have h2 : 2 ≤ page := by omega
          have hmax : max 1 (page - 1) = page - 1 := by omega
          simp only [h1, if_false, hmax]
          have := ih (page - 1) (by omega) (by omega)
            { st with currentPage := page - 1, totalPages := some (page - 1),
                      hasNextPage := false }
          calc (loadProposals fetch S (page - 1)
                  { st with currentPage := page - 1, totalPages := some (page - 1),
                            hasNextPage := false }).currentPage
              ≤ max (page - 1) (page - 1 - 1) := this
            _ ≤ max st.currentPage (page - 1) := by omega
      · simp [hemp]

/-- C9: with page size `S`, (a) a non-empty fetch of fewer than `S` records
marks the requested page as the last one and disables Next; (b) an empty
fetch at page `N > 1` sets the total to `N - 1`, moves the current page
counter back to `N - 1` and reloads that page, and the final current page
never exceeds `N - 1`; (c) the Next action does nothing when no next page
is known to exist. -/
theorem loadProposals_pagination {A : Type} (fetch : Nat → List A) (S N : Nat)
    (st : PagState A) :
    ((fetch N ≠ [] ∧ (fetch N).length < S) →
        (loadProposals fetch S N st).totalPages = some N ∧
        (loadProposals fetch S N st).hasNextPage = false) ∧
    (fetch N = [] → 1 < N →
        loadProposals fetch S N st =
          loadProposals fetch S (N - 1)
            { st with currentPage := N - 1, totalPages := some (N - 1),
                      hasNextPage := false } ∧
        (loadProposals fetch S N st).currentPage ≤ N - 1) ∧
    (st.hasNextPage = false → handleNext fetch S st = st) := by
  refine ⟨?_, ?_, ?_⟩
  · rintro ⟨hne, hlt⟩
    have hemp : (fetch N).isEmpty = false := by
      cases hf : fetch N with
      | nil => exact absurd hf hne
      | cons a l => simp
    rw [loadProposals]
    simp [hemp, hlt]
  · intro hf hN
    have hemp : (fetch N).isEmpty := by simp [hf]
    have hmax : max 1 (N - 1) = N - 1 := by omega
    have hstep : loadProposals fetch S N st =
        loadProposals fetch S (N - 1)
          { st with currentPage := N - 1, totalPages := some (N - 1),
                    hasNextPage := false } := by
      rw [loadProposals]
      have h1 : ¬ N = 1 := by omega
      simp [hemp, h1, hmax]
    refine ⟨hstep, ?_⟩
    rw [hstep]
    have := loadProposals_currentPage_le fetch S (N - 1) (by omega)
      { st with currentPage := N - 1, totalPages := some (N - 1), hasNextPage := false }
    simp only at this
    omega
  · intro h
    simp [handleNext, h]

def fetchOnePage : Nat → List Nat := fun p => if p = 1 then [7] else []

/-- C9 witness: with a single one-record page, loading page 1 marks it last
and disables Next; loading page 2 (empty) moves the counter back to 1; and
Next on a state with no known next page is a no-op. -/
theorem loadProposals_pagination_witness :
    ((loadProposals fetchOnePage 10 1 (⟨1, none, true, []⟩ : PagState Nat)).totalPages =
        some 1 ∧
      (loadProposals fetchOnePage 10 1 (⟨1, none, true, []⟩ : PagState Nat)).hasNextPage =
        false) ∧
    (loadProposals fetchOnePage 10 2 (⟨2, none, true, []⟩ : PagState Nat)).currentPage ≤ 1 ∧
    handleNext fetchOnePage 10 (⟨1, some 1, false, [7]⟩ : PagState Nat) =
      (⟨1, some 1, false, [7]⟩ : PagState Nat) :=
  ⟨(loadProposals_pagination fetchOnePage 10 1 ⟨1, none, true, []⟩).1 ⟨by decide, by decide⟩,
    ((loadProposals_pagination fetchOnePage 10 2 ⟨2, none, true, []⟩).2.1 (by decide)
      (by decide)).2,
    (loadProposals_pagination fetchOnePage 10 1 ⟨1, some 1, false, [7]⟩).2.2 rfl⟩

/-! ## Claim C10: tally percentages -/

/-- C10: the four derived vote percentages are the floor of
`count * 100 / total` as exact (arbitrary-precision) integers, each at most
100, summing to at most 100; a zero tally replaces the divisor by 1, so no
division by zero occurs and all percentages are 0. -/
theorem tallyPercents_bounds (y n a v : Nat) :
    (tallyPercents y n a v).1 ≤ 100 ∧
    (tallyPercents y n a v).2.1 ≤ 100 ∧
    (tallyPercents y n a v).2.2.1 ≤ 100 ∧
    (tallyPercents y n a v).2.2.2 ≤ 100 ∧
    (tallyPercents y n a v).1 + (tallyPercents y n a v).2.1 +
      (tallyPercents y n a v).2.2.1 + (tallyPercents y n a v).2.2.2 ≤ 100 ∧
    0 < (if y + n + a + v = 0 then 1 else y + n + a + v) ∧
    (y + n + a + v = 0 → tallyPercents y n a v = (0, 0, 0, 0)) := by
  by_cases hz : y + n + a + v = 0
  · have hy : y = 0 := by omega
    have hn : n = 0 := by omega
    have ha : a = 0 := by omega
    have hv : v = 0 := by omega
    subst hy; subst hn; subst ha; subst hv
    simp [tallyPercents]
  · have hpos : 0 < y + n + a + v := Nat.pos_of_ne_zero hz
    set t := y + n + a + v with ht
    have htot : (if t = 0 then 1 else t) = t := by simp [hz]
    have hone : ∀ x : Nat, x ≤ t → x * 100 / t ≤ 100 := by
      intro x hx
      calc x * 100 / t ≤ t * 100 / t := Nat.div_le_div_right (by omega)
        _ = 100 := by rw [Nat.mul_comm]; exact Nat.mul_div_cancel _ hpos
    have hsum : y * 100 / t + n * 100 / t + a * 100 / t + v * 100 / t ≤ 100 := by
      have h1 : y * 100 / t + n * 100 / t ≤ (y * 100 + n * 100) / t :=
        Nat.add_div_le_add_div _ _ _
      have h2 : (y * 100 + n * 100) / t + a * 100 / t ≤ (y * 100 + n * 100 + a * 100) / t :=
        Nat.add_div_le_add_div _ _ _
      have h3 : (y * 100 + n * 100 + a * 100) / t + v * 100 / t ≤
          (y * 100 + n * 100 + a * 100 + v * 100) / t := Nat.add_div_le_add_div _ _ _
      have heq : (y * 100 + n * 100 + a * 100 + v * 100) / t = 100 := by
        have : y * 100 + n * 100 + a * 100 + v * 100 = t * 100 := by rw [ht]; ring
        rw [this, Nat.mul_comm]
        exact Nat.mul_div_cancel _ hpos
      omega
    simp only [tallyPercents, htot]
    refine ⟨hone y (by omega), hone n (by omega), hone a (by omega), hone v (by omega),
      hsum, hpos, fun h => absurd h hz⟩

/-- C10 witness: the zero tally produces divisor 1 and all-zero
percentages; a concrete non-zero tally stays within the bounds. -/
theorem tallyPercents_bounds_witness :
    tallyPercents 0 0 0 0 = (0, 0, 0, 0) ∧
    (tallyPercents 3 1 0 0).1 + (tallyPercents 3 1 0 0).2.1 +
      (tallyPercents 3 1 0 0).2.2.1 + (tallyPercents 3 1 0 0).2.2.2 ≤ 100 :=
  ⟨(tallyPercents_bounds 0 0 0 0).2.2.2.2.2.2 rfl,
    (tallyPercents_bounds 3 1 0 0).2.2.2.2.1⟩

end Helios
